import Mathlib

/-!
# Verification of `gen_slideshow.py`

A shallow embedding of the slideshow generator script: it collects the
text files of a directory into an insertion-ordered dictionary, formats
each entry with the `SNIPPET_UTT` pattern, substitutes the joined
fragments into a template via Python `%` formatting, writes the result
into the `tmp/` working directory, invokes `pdflatex` twice, moves the
produced artifact to the requested output path and removes `tmp/`.

Pure string operations (`Path.suffix`, `Path.stem`, `Path.name`,
`str.strip`, `str.__mod__`) are embedded as executable Lean functions on
`String`; the effectful tail of the script is embedded as a function
from an abstract run input (directory listing in enumeration order,
template read result, output path, whether the compiler produced its
artifact, the two ignored compiler exit statuses) to a result and a
trace of filesystem/subprocess events.
-/

namespace GenSlideshow

/-- Index of the last `'.'` in a list of characters, if any
(the `name.rfind('.')` step of CPython's `PurePath.suffix`/`stem`). -/
def lastDotIdx (l : List Char) : Option Nat :=
  match l.reverse.findIdx? (fun c => c = '.') with
  | some j => some (l.length - 1 - j)
  | none => none

/-- Python `Path(name).suffix` for a final path component `name`:
the substring from the last dot, provided that dot is neither the first
nor the last character; otherwise the empty string. -/
def pySuffix (name : String) : String :=
  match lastDotIdx name.data with
  | some i =>
      if 0 < i ∧ i + 1 < name.data.length then String.mk (name.data.drop i) else ""
  | none => ""

/-- Python `Path(name).stem` for a final path component `name`:
the part before the suffix, or the whole name when the suffix is empty. -/
def pyStem (name : String) : String :=
  match lastDotIdx name.data with
  | some i =>
      if 0 < i ∧ i + 1 < name.data.length then String.mk (name.data.take i) else name
  | none => name

/-- Python `Path(p).name`: the final component of the path, with empty
components (produced by duplicate or trailing slashes) dropped. -/
def pyName (p : String) : String :=
  (((p.splitOn "/").filter (fun s => s ≠ "")).getLast?).getD ""

/-- The characters Python `str.strip()` removes (the ASCII whitespace
characters; exotic Unicode space code points are outside the model). -/
def pyIsSpace (c : Char) : Bool :=
  c = ' ' || c = '\t' || c = '\n' || c = '\r' || c = '\x0b' || c = '\x0c'

/-- Python `str.strip()`: drop leading and trailing whitespace. -/
def pyStrip (s : String) : String :=
  String.mk (((s.data.dropWhile pyIsSpace).reverse.dropWhile pyIsSpace).reverse)

/-- Python `%` formatting of a format-character list against a list of
string arguments, as used by the script (`fmt % (s1, ..., sn)`).
`%s` consumes the next argument verbatim; `%%` is a literal percent.
Left-over arguments (`TypeError: not all arguments converted`), a
missing argument for `%s`, a trailing `%` (`ValueError: incomplete
format`) are formatting errors, modelled as `none`.  Conversions other
than `s` are also modelled as errors: the script only ever passes
`str` arguments, for which the numeric conversions raise `TypeError`
in Python (the rarely used `r`/`a`/`c` conversions and width/precision
flags are outside the model). -/
def pyFormatChars : List Char → List String → Option String
  | [], [] => some ""
  | [], _ :: _ => none
  | c :: cs, args =>
    if c = '%' then
      match cs with
      | [] => none
      | c2 :: rest =>
        if c2 = 's' then
          match args with
          | [] => none
          | a :: more => (pyFormatChars rest more).map (fun t => a ++ t)
        else if c2 = '%' then
          (pyFormatChars rest args).map (fun t => "%" ++ t)
        else none
    else (pyFormatChars cs args).map (fun t => String.singleton c ++ t)

/-- Python `fmt % (args...)` with string arguments. -/
def pyFormat (fmt : String) (args : List String) : Option String :=
  pyFormatChars fmt.data args

/-- The `SNIPPET_UTT` constant of the script (line 31). -/
def SNIPPET_UTT : String := "\\begin{frame}\\frametitle{%s}\n\t%s\n\\end{frame}\n"

/-- The `TMP_DIR` constant of the script (line 30), as a path string. -/
def TMP_DIR : String := "tmp/"

/-- One entry of the input directory listing: its final path component
and its full text content. -/
structure FileEntry where
  name : String
  content : String
  deriving DecidableEq, Repr

/-- The extension whitelist test of line 136:
`cur_file.suffix in set([".txt", ".TXT", ".text", ".TEXT"])`. -/
def recognized (f : FileEntry) : Bool :=
  [".txt", ".TXT", ".text", ".TEXT"].contains (pySuffix f.name)

/-- Python `dict` assignment `d[k] = v` on an insertion-ordered
association list: an existing key keeps its position and gets the new
value, a new key is appended at the end. -/
def dictInsert : List (String × String) → String → String → List (String × String)
  | [], k, v => [(k, v)]
  | (k', v') :: d, k, v =>
      if k' = k then (k', v) :: d else (k', v') :: dictInsert d k v

/-- Dictionary lookup `d[k]` on the association list. -/
def dictGet : List (String × String) → String → Option String
  | [], _ => none
  | (k', v') :: d, k => if k' = k then some v' else dictGet d k

/-- The body of the collection loop (lines 135-138): a recognized file
is stored under its stem with stripped content, any other directory
entry is skipped. -/
def collectStep (d : List (String × String)) (f : FileEntry) : List (String × String) :=
  if recognized f then dictInsert d (pyStem f.name) (pyStrip f.content) else d

/-- The collection loop run from an arbitrary starting dictionary. -/
def collectAux (d : List (String × String)) (files : List FileEntry) :
    List (String × String) :=
  files.foldl collectStep d

/-- The `dict_text` built by lines 134-138 from the directory listing
(in enumeration order). -/
def collect (files : List FileEntry) : List (String × String) :=
  collectAux [] files

/-- The list comprehension of line 141:
`[SNIPPET_UTT % (k, dict_text[k]) for k in dict_text]`, with a
formatting error anywhere aborting the run. -/
def fragsOf : List (String × String) → Option (List String)
  | [] => some []
  | kv :: d =>
      (pyFormat SNIPPET_UTT [kv.1, kv.2]).bind fun s =>
        (fragsOf d).map fun rest => s :: rest

/-- Abstract input of one run of the script's `__main__` section. -/
structure RunInput where
  /-- The entries `text_dir.iterdir()` yields, in enumeration order. -/
  textFiles : List FileEntry
  /-- Content of the template file; `none` when it cannot be read. -/
  template : Option String
  /-- The `output_file` positional argument. -/
  outputFile : String
  /-- Whether `<TMP_DIR>/<output name>` exists when the move of
  line 161 runs (i.e. whether the compiler produced its artifact). -/
  artifactProduced : Bool
  /-- Exit statuses of the two `pdflatex` invocations (the script calls
  `p.wait()` and discards the value both times). -/
  compilerExits : Int × Int
  deriving DecidableEq, Repr

/-- The document of line 146: fragments of the collected entries,
joined with a newline, substituted into the template; `none` when the
template cannot be read or a `%` substitution raises. -/
def renderedDoc (inp : RunInput) : Option String :=
  (fragsOf (collect inp.textFiles)).bind fun frags =>
    inp.template.bind fun tmpl =>
      pyFormat tmpl [String.intercalate "\n" frags]

/-- Filesystem and subprocess effects of the script's tail
(lines 150-162), in program order. -/
inductive Event where
  /-- `TMP_DIR.mkdir(exist_ok=True, parents=True)` (line 150). -/
  | mkdirTmp
  /-- Write of the rendered document to the named file (lines 151-152). -/
  | writeTmp (path : String) (content : String)
  /-- `subprocess.Popen(["pdflatex", arg], cwd=cwd)` + `wait()`. -/
  | spawnCompiler (arg : String) (cwd : String)
  /-- `shutil.move(src, dst)` (line 161). -/
  | move (src : String) (dst : String)
  /-- `shutil.rmtree(dir)` (line 162). -/
  | removeTree (dir : String)
  deriving DecidableEq, Repr

/-- Whether an event is a compiler invocation. -/
def Event.isSpawn : Event → Bool
  | .spawnCompiler _ _ => true
  | _ => false

/-- Outcome of a run: an exception while rendering (unreadable template
or `%` formatting error, lines 144-146), an exception in the final move
because the artifact is missing (line 161), or success. -/
inductive RunResult where
  | success
  | renderError
  | moveError
  deriving DecidableEq, Repr

/-- The `__main__` section from line 133 on, as a function from the
abstract input to the outcome and the event trace.  A rendering
exception aborts before any effect; after a successful render the
script writes `tmp/<stem>.tex`, spawns `pdflatex` twice ignoring both
exit statuses, then moves `tmp/<name>` to the output path and removes
`tmp/` — the move raising (missing artifact) leaves `tmp/` in place. -/
def run (inp : RunInput) : RunResult × List Event :=
  match renderedDoc inp with
  | none => (.renderError, [])
  | some doc =>
    let name := pyName inp.outputFile
    let stem := pyStem name
    let evs : List Event :=
      [.mkdirTmp,
       .writeTmp (TMP_DIR ++ (stem ++ ".tex")) doc,
       .spawnCompiler (stem ++ ".tex") TMP_DIR,
       .spawnCompiler (stem ++ ".tex") TMP_DIR]
    if inp.artifactProduced then
      (.success, evs ++ [.move (TMP_DIR ++ name) inp.outputFile, .removeTree TMP_DIR])
    else
      (.moveError, evs)

/-- The value of `SNIPPET_UTT % (k, v)`: the framing pattern with the
identifier as heading and the content inserted verbatim. -/
def snippetStr (k v : String) : String :=
  "\\begin\x7bframe\x7d\\frametitle\x7b" ++
    (k ++ ("\x7d\n\t" ++ (v ++ "\n\\end\x7bframe\x7d\n")))

/-- The keys of an association list, in order. -/
def keys (d : List (String × String)) : List String :=
  d.map Prod.fst

/-- The last element of a list satisfying a predicate, if any. -/
def lastMatch (p : α → Bool) : List α → Option α
  | [] => none
  | x :: xs =>
      match lastMatch p xs with
      | some y => some y
      | none => if p x then some x else none

/-! ### String-append helper lemmas -/

theorem mk_append_mk (a b : List Char) :
    String.mk a ++ String.mk b = String.mk (a ++ b) := rfl

theorem singleton_append_mk (c : Char) (l : List Char) :
    String.singleton c ++ String.mk l = String.mk (c :: l) := rfl

theorem mk_nil_append (s : String) : String.mk [] ++ s = s := rfl

theorem singleton_append_mk_append (c : Char) (l : List Char) (y : String) :
    String.singleton c ++ (String.mk l ++ y) = String.mk (c :: l) ++ y := rfl

/-! ### Formatting lemmas -/

/-- `SNIPPET_UTT % (k, v)` always succeeds and inserts both arguments
verbatim, whatever characters they contain. -/
theorem pyFormat_snippet (k v : String) :
    pyFormat SNIPPET_UTT [k, v] = some (snippetStr k v) := rfl

/-- A format string without `'%'` and no arguments formats to itself. -/
theorem pyFormatChars_noPercent (cs : List Char) (h : ∀ c ∈ cs, c ≠ '%') :
    pyFormatChars cs [] = some (String.mk cs) := by
  induction cs with
  | nil => rfl
  | cons c cs ih =>
      have hc : c ≠ '%' := h c (List.mem_cons_self c cs)
      have ih' := ih fun d hd => h d (List.mem_cons_of_mem c hd)
      rw [pyFormatChars.eq_def]
      simp [hc, ih', singleton_append_mk]

/-- A format string with exactly one `%s` and otherwise no `'%'`,
applied to one argument, substitutes the argument exactly once. -/
theorem pyFormatChars_placeholder (pre post : List Char) (x : String)
    (hpre : ∀ c ∈ pre, c ≠ '%') (hpost : ∀ c ∈ post, c ≠ '%') :
    pyFormatChars (pre ++ '%' :: 's' :: post) [x] =
      some (String.mk pre ++ (x ++ String.mk post)) := by
  induction pre with
  | nil =>
      rw [List.nil_append, pyFormatChars.eq_def]
      simp [pyFormatChars_noPercent post hpost, mk_nil_append]
  | cons c pre ih =>
      have hc : c ≠ '%' := hpre c (List.mem_cons_self c pre)
      have ih' := ih fun d hd => hpre d (List.mem_cons_of_mem c hd)
      rw [List.cons_append, pyFormatChars.eq_def]
      simp [hc, ih', singleton_append_mk_append]

/-- The fragment list of a dictionary always renders, entry by entry. -/
theorem fragsOf_eq (d : List (String × String)) :
    fragsOf d = some (d.map fun kv => snippetStr kv.1 kv.2) := by
  induction d with
  | nil => rfl
  | cons kv d ih => simp [fragsOf, pyFormat_snippet, ih]

/-! ### Dictionary lemmas -/

theorem dictGet_dictInsert_self (d : List (String × String)) (k v : String) :
    dictGet (dictInsert d k v) k = some v := by
  induction d with
  | nil => simp [dictInsert, dictGet]
  | cons p d ih =>
      obtain ⟨k', v'⟩ := p
      by_cases h : k' = k
      · simp [dictInsert, dictGet, h]
      · simp [dictInsert, dictGet, h, ih]

theorem dictGet_dictInsert_ne (d : List (String × String)) (k v a : String)
    (h : a ≠ k) : dictGet (dictInsert d k v) a = dictGet d a := by
  have h' : ¬(k = a) := fun hh => h hh.symm
  induction d with
  | nil => simp [dictInsert, dictGet, h']
  | cons p d ih =>
      obtain ⟨k', v'⟩ := p
      by_cases hk : k' = k
      · subst hk
        simp [dictInsert, dictGet, h']
      · simp [dictInsert, dictGet, hk, ih]

theorem keys_cons (p : String × String) (d : List (String × String)) :
    keys (p :: d) = p.1 :: keys d := rfl

theorem keys_dictInsert (d : List (String × String)) (k v : String) :
    keys (dictInsert d k v) = if k ∈ keys d then keys d else keys d ++ [k] := by
  induction d with
  | nil => simp [dictInsert, keys]
  | cons p d ih =>
      obtain ⟨k', v'⟩ := p
      by_cases h : k' = k
      · subst h
        simp [dictInsert, keys_cons, List.mem_cons]
      · have hne : ¬(k = k') := fun hh => h hh.symm
        have hstep : dictInsert ((k', v') :: d) k v = (k', v') :: dictInsert d k v := by
          simp [dictInsert, h]
        rw [hstep, keys_cons, keys_cons, ih]
        by_cases hm : k ∈ keys d
        · rw [if_pos hm, if_pos (by simp [List.mem_cons, hne, hm])]
        · rw [if_neg hm, if_neg (by simp [List.mem_cons, hne, hm]), List.cons_append]

theorem mem_keys_dictInsert (d : List (String × String)) (k v a : String) :
    a ∈ keys (dictInsert d k v) ↔ a ∈ keys d ∨ a = k := by
  rw [keys_dictInsert]
  by_cases h : k ∈ keys d
  · simp only [if_pos h]
    constructor
    · exact Or.inl
    · rintro (ha | rfl)
      · exact ha
      · exact h
  · simp [if_neg h]

theorem nodup_keys_dictInsert (d : List (String × String)) (k v : String)
    (h : (keys d).Nodup) : (keys (dictInsert d k v)).Nodup := by
  rw [keys_dictInsert]
  by_cases hm : k ∈ keys d
  · rwa [if_pos hm]
  · rw [if_neg hm]
    simp [List.nodup_append, h, hm]

/-! ### Collector lemmas -/

theorem lastMatch_eq_getLast_filter (p : α → Bool) (l : List α) :
    lastMatch p l = (l.filter p).getLast? := by
  induction l with
  | nil => rfl
  | cons x xs ih =>
      rw [List.filter_cons]
      cases hm : lastMatch p xs with
      | some y =>
          have hy : (xs.filter p).getLast? = some y := by rw [← ih, hm]
          cases hf : xs.filter p with
          | nil => rw [hf] at hy; cases hy
          | cons b l' =>
              rw [hf] at hy
              cases hp : p x with
              | true => simp [lastMatch, hm, hp, List.getLast?_cons_cons, hy]
              | false => simp [lastMatch, hm, hp, hy]
      | none =>
          have hy : (xs.filter p).getLast? = none := by rw [← ih, hm]
          have hf : xs.filter p = [] := List.getLast?_eq_none_iff.mp hy
          rw [hf]
          cases hp : p x with
          | true => simp [lastMatch, hm, hp]
          | false => simp [lastMatch, hm, hp]

theorem dictGet_collectAux (files : List FileEntry) (d : List (String × String))
    (k : String) :
    dictGet (collectAux d files) k =
      (lastMatch (fun f => recognized f && (pyStem f.name == k)) files).elim
        (dictGet d k) (fun f => some (pyStrip f.content)) := by
  induction files generalizing d with
  | nil => rfl
  | cons f fs ih =>
      rw [show collectAux d (f :: fs) = collectAux (collectStep d f) fs from rfl, ih]
      cases hm : lastMatch (fun f => recognized f && (pyStem f.name == k)) fs with
      | some y => simp [lastMatch, hm]
      | none =>
          simp only [lastMatch, hm]
          by_cases hr : recognized f
          · by_cases hs : pyStem f.name = k
            · subst hs
              simp [collectStep, hr, dictGet_dictInsert_self]
            · have hne : k ≠ pyStem f.name := fun hh => hs hh.symm
              simp [collectStep, hr, hs, dictGet_dictInsert_ne _ _ _ _ hne]
          · simp [collectStep, hr]

theorem mem_keys_collectAux (files : List FileEntry) (d : List (String × String))
    (k : String) :
    k ∈ keys (collectAux d files) ↔
      k ∈ keys d ∨ ∃ f, f ∈ files ∧ recognized f = true ∧ pyStem f.name = k := by
  induction files generalizing d with
  | nil => simp [collectAux, keys]
  | cons f fs ih =>
      rw [show collectAux d (f :: fs) = collectAux (collectStep d f) fs from rfl, ih]
      by_cases hr : recognized f
      · simp only [collectStep, if_pos hr, mem_keys_dictInsert, List.mem_cons]
        constructor
        · rintro (⟨hd | he⟩ | ⟨g, hg, hgr, hgs⟩)
          · exact Or.inl hd
          · exact Or.inr ⟨f, Or.inl rfl, hr, he.symm⟩
          · exact Or.inr ⟨g, Or.inr hg, hgr, hgs⟩
        · rintro (hd | ⟨g, (rfl | hg), hgr, hgs⟩)
          · exact Or.inl (Or.inl hd)
          · exact Or.inl (Or.inr hgs.symm)
          · exact Or.inr ⟨g, hg, hgr, hgs⟩
      · simp only [collectStep, if_neg hr, List.mem_cons]
        constructor
        · rintro (hd | ⟨g, hg, hgr, hgs⟩)
          · exact Or.inl hd
          · exact Or.inr ⟨g, Or.inr hg, hgr, hgs⟩
        · rintro (hd | ⟨g, (rfl | hg), hgr, hgs⟩)
          · exact Or.inl hd
          · exact absurd hgr (by simpa using hr)
          · exact Or.inr ⟨g, hg, hgr, hgs⟩

theorem nodup_keys_collectAux (files : List FileEntry) (d : List (String × String))
    (h : (keys d).Nodup) : (keys (collectAux d files)).Nodup := by
  induction files generalizing d with
  | nil => exact h
  | cons f fs ih =>
      refine ih _ ?_
      by_cases hr : recognized f
      · simpa [collectStep, hr] using nodup_keys_dictInsert d _ _ h
      · simpa [collectStep, hr] using h

theorem mem_keys_collect (files : List FileEntry) (k : String) :
    k ∈ keys (collect files) ↔
      ∃ f, f ∈ files ∧ recognized f = true ∧ pyStem f.name = k := by
  rw [collect, mem_keys_collectAux]
  simp [keys]

theorem nodup_keys_collect (files : List FileEntry) :
    (keys (collect files)).Nodup := by
  exact nodup_keys_collectAux files [] (by simp [keys])

/-! ### Run lemmas -/

theorem renderedDoc_template_none (inp : RunInput) (h : inp.template = none) :
    renderedDoc inp = none := by
  unfold renderedDoc
  rw [h]
  cases fragsOf (collect inp.textFiles) <;> rfl

/-! ### Claims -/

/-- C1: every `TextEntry` of the collection yields exactly one fragment
and the fragments appear in collection order (the fragment list is the
entry-wise image of the dictionary); the number of fragments equals the
number of recognized text files after last-wins base-name collisions,
i.e. the number of distinct stems among the recognized files. -/
theorem fragments_exactly_once_in_order (files : List FileEntry) :
    fragsOf (collect files) =
      some ((collect files).map fun kv => snippetStr kv.1 kv.2) ∧
    (collect files).length =
      (((files.filter fun f => recognized f).map fun f => pyStem f.name).dedup).length := by
  refine ⟨fragsOf_eq _, ?_⟩
  have hkeys : (collect files).length = (keys (collect files)).length := by
    simp [keys]
  have hnd := nodup_keys_collect files
  have hmem : ∀ k, k ∈ keys (collect files) ↔
      k ∈ (files.filter fun f => recognized f).map fun f => pyStem f.name := by
    intro k
    rw [mem_keys_collect]
    simp only [List.mem_map, List.mem_filter]
    constructor
    · rintro ⟨f, hf, hr, hs⟩
      exact ⟨f, ⟨hf, hr⟩, hs⟩
    · rintro ⟨f, ⟨hf, hr⟩, hs⟩
      exact ⟨f, hf, hr, hs⟩
  have hfin : (keys (collect files)).toFinset =
      ((files.filter fun f => recognized f).map fun f => pyStem f.name).toFinset := by
    ext a
    simp only [List.mem_toFinset]
    exact hmem a
  calc (collect files).length
      = (keys (collect files)).length := hkeys
    _ = (keys (collect files)).toFinset.card := (List.toFinset_card_of_nodup hnd).symm
    _ = ((files.filter fun f => recognized f).map fun f => pyStem f.name).toFinset.card := by
          rw [hfin]
    _ = _ := List.card_toFinset _

/-- C2: the collector stores an entry exactly for the directory entries
whose extension is a case-sensitive member of
`{.txt, .TXT, .text, .TEXT}`; the key is the name with the extension
removed, the content is the file's text with surrounding whitespace
stripped, and the stored content for a key is that of the last
recognized file with that stem.  Concretely, the whitelist test is
case-sensitive and `"  hello\n\n"` strips to `"hello"`. -/
theorem collector_entry_characterization :
    (∀ (files : List FileEntry) (k : String),
        dictGet (collect files) k =
          ((files.filter fun f => recognized f && (pyStem f.name == k)).getLast?).elim
            none fun f => some (pyStrip f.content)) ∧
    (∀ f : FileEntry,
        recognized f = [".txt", ".TXT", ".text", ".TEXT"].contains (pySuffix f.name)) ∧
    recognized ⟨"a.Txt", ""⟩ = false ∧
    recognized ⟨"a.txt", ""⟩ = true ∧
    pyStrip "  hello\n\n" = "hello" := by
  refine ⟨?_, fun f => rfl, by decide, by decide, by decide⟩
  intro files k
  rw [collect, dictGet_collectAux, lastMatch_eq_getLast_filter]
  cases (files.filter fun f => recognized f && (pyStem f.name == k)).getLast? <;> rfl

/-- C3: for a template consisting of one `%s` placeholder between two
percent-free parts, the rendered document is exactly the template with
the placeholder replaced once by the fragments joined with a single
newline, each fragment being the fixed framing pattern with the entry's
identifier as heading and its content inserted verbatim; the percent-free
parts pass through unchanged, so no placeholder remains. -/
theorem rendered_document_is_single_substitution (inp : RunInput)
    (pre post : List Char)
    (hpre : ∀ c ∈ pre, c ≠ '%') (hpost : ∀ c ∈ post, c ≠ '%')
    (htmpl : inp.template = some (String.mk (pre ++ '%' :: 's' :: post))) :
    renderedDoc inp =
      some (String.mk pre ++
        (String.intercalate "\n"
            ((collect inp.textFiles).map fun kv => snippetStr kv.1 kv.2) ++
          String.mk post)) := by
  unfold renderedDoc
  rw [fragsOf_eq, htmpl]
  exact pyFormatChars_placeholder pre post _ hpre hpost

/-- C3 witness: template `"BEFORE %s AFTER"` with the single collected
file `a.txt` containing `"  hello\n\n"` renders to the template with the
one fragment substituted exactly once. -/
theorem rendered_document_is_single_substitution_witness :
    renderedDoc ⟨[⟨"a.txt", "  hello\n\n"⟩], some "BEFORE %s AFTER", "out.pdf", true, (0, 0)⟩ =
      some "BEFORE \\begin{frame}\\frametitle{a}\n\thello\n\\end{frame}\n AFTER" := by
  have h := rendered_document_is_single_substitution
    ⟨[⟨"a.txt", "  hello\n\n"⟩], some "BEFORE %s AFTER", "out.pdf", true, (0, 0)⟩
    "BEFORE ".data " AFTER".data (by decide) (by decide) rfl
  exact h.trans (by rfl)

/-- C4: when the template cannot be read, or the single-placeholder
substitution fails, the run ends in a rendering error with an empty
effect trace: in particular no compiler subprocess is ever spawned and
no (unrendered) document is ever written. -/
theorem render_failure_precedes_compilation (inp : RunInput)
    (h : inp.template = none ∨ renderedDoc inp = none) :
    (run inp).1 = RunResult.renderError ∧ (run inp).2 = [] ∧
    ∀ a c, Event.spawnCompiler a c ∉ (run inp).2 := by
  have hnone : renderedDoc inp = none := by
    rcases h with h | h
    · exact renderedDoc_template_none inp h
    · exact h
  refine ⟨by simp [run, hnone], by simp [run, hnone], ?_⟩
  intro a c
  simp [run, hnone]

/-- C4 witness: a template without any placeholder makes the run fail
with an empty effect trace. -/
theorem render_failure_precedes_compilation_witness :
    (run ⟨[], some "NO PLACEHOLDER", "out.pdf", true, (0, 0)⟩).1 = RunResult.renderError ∧
    (run ⟨[], some "NO PLACEHOLDER", "out.pdf", true, (0, 0)⟩).2 = [] ∧
    ∀ a c, Event.spawnCompiler a c ∉
      (run ⟨[], some "NO PLACEHOLDER", "out.pdf", true, (0, 0)⟩).2 :=
  render_failure_precedes_compilation _ (Or.inr rfl)

/-- C5: on every run that reaches compilation (the document rendered),
the compiler is spawned exactly twice, with the same source file name
and the same working directory, and the run's outcome and trace are
independent of both invocations' exit statuses (the script never
inspects them, so the second invocation happens regardless of the
first's outcome). -/
theorem compiler_invoked_twice_identically (inp : RunInput) (doc : String)
    (e1 e2 e1' e2' : Int) (h : renderedDoc inp = some doc) :
    (run inp).2.filter Event.isSpawn =
      [Event.spawnCompiler (pyStem (pyName inp.outputFile) ++ ".tex") TMP_DIR,
       Event.spawnCompiler (pyStem (pyName inp.outputFile) ++ ".tex") TMP_DIR] ∧
    run { inp with compilerExits := (e1, e2) } =
      run { inp with compilerExits := (e1', e2') } := by
  constructor
  · cases ha : inp.artifactProduced <;>
      simp [run, h, ha, Event.isSpawn]
  · cases inp
    rfl

/-- C5 witness: a concrete run (empty directory, template `"%s"`)
spawns the compiler exactly twice with identical arguments, whatever
the exit statuses are. -/
theorem compiler_invoked_twice_identically_witness :
    (run ⟨[], some "%s", "out.pdf", true, (0, 0)⟩).2.filter Event.isSpawn =
      [Event.spawnCompiler (pyStem (pyName "out.pdf") ++ ".tex") TMP_DIR,
       Event.spawnCompiler (pyStem (pyName "out.pdf") ++ ".tex") TMP_DIR] ∧
    run { (⟨[], some "%s", "out.pdf", true, (0, 0)⟩ : RunInput) with compilerExits := (0, 1) } =
      run { (⟨[], some "%s", "out.pdf", true, (0, 0)⟩ : RunInput) with compilerExits := (2, 3) } :=
  compiler_invoked_twice_identically _ "" 0 1 2 3 rfl

/-- C6: every successful run rendered some document, and its effect
trace is exactly: create the working directory, write the document
source into it, spawn the compiler twice, move the artifact named after
the output path's base name from the working directory to the output
path, and finally remove the whole working directory — so after success
the working directory is gone and the output path holds the artifact
previously at `tmp/<name>`. -/
theorem successful_run_moves_artifact_and_removes_workdir (inp : RunInput)
    (h : (run inp).1 = RunResult.success) :
    ∃ doc, renderedDoc inp = some doc ∧
      (run inp).2 =
        [Event.mkdirTmp,
         Event.writeTmp (TMP_DIR ++ (pyStem (pyName inp.outputFile) ++ ".tex")) doc,
         Event.spawnCompiler (pyStem (pyName inp.outputFile) ++ ".tex") TMP_DIR,
         Event.spawnCompiler (pyStem (pyName inp.outputFile) ++ ".tex") TMP_DIR,
         Event.move (TMP_DIR ++ pyName inp.outputFile) inp.outputFile,
         Event.removeTree TMP_DIR] := by
  cases hr : renderedDoc inp with
  | none => simp [run, hr] at h
  | some doc =>
      cases ha : inp.artifactProduced with
      | false => simp [run, hr, ha] at h
      | true => exact ⟨doc, rfl, by simp [run, hr, ha]⟩

/-- C6 witness: a concrete successful run ends by moving
`tmp/slides.pdf` to `slides.pdf` and then removing `tmp/`. -/
theorem successful_run_moves_artifact_and_removes_workdir_witness :
    ∃ doc,
      renderedDoc ⟨[⟨"a.txt", "hi"⟩], some "%s", "slides.pdf", true, (0, 0)⟩ = some doc ∧
      (run ⟨[⟨"a.txt", "hi"⟩], some "%s", "slides.pdf", true, (0, 0)⟩).2 =
        [Event.mkdirTmp,
         Event.writeTmp (TMP_DIR ++ (pyStem (pyName "slides.pdf") ++ ".tex")) doc,
         Event.spawnCompiler (pyStem (pyName "slides.pdf") ++ ".tex") TMP_DIR,
         Event.spawnCompiler (pyStem (pyName "slides.pdf") ++ ".tex") TMP_DIR,
         Event.move (TMP_DIR ++ pyName "slides.pdf") "slides.pdf",
         Event.removeTree TMP_DIR] :=
  successful_run_moves_artifact_and_removes_workdir _ rfl

/-- C7: when the expected artifact is absent after compilation, the run
ends in the missing-file move error, the trace stops after the two
compiler invocations, and in particular the working directory is never
removed (no `removeTree` event) and no move completes. -/
theorem missing_artifact_fails_move_and_keeps_workdir (inp : RunInput) (doc : String)
    (hr : renderedDoc inp = some doc) (ha : inp.artifactProduced = false) :
    (run inp).1 = RunResult.moveError ∧
    (run inp).2 =
      [Event.mkdirTmp,
       Event.writeTmp (TMP_DIR ++ (pyStem (pyName inp.outputFile) ++ ".tex")) doc,
       Event.spawnCompiler (pyStem (pyName inp.outputFile) ++ ".tex") TMP_DIR,
       Event.spawnCompiler (pyStem (pyName inp.outputFile) ++ ".tex") TMP_DIR] ∧
    (∀ d, Event.removeTree d ∉ (run inp).2) ∧
    ∀ s d, Event.move s d ∉ (run inp).2 := by
  refine ⟨by simp [run, hr, ha], by simp [run, hr, ha], ?_, ?_⟩
  · intro d
    simp [run, hr, ha]
  · intro s d
    simp [run, hr, ha]

/-- C7 witness: a concrete run whose compiler produced no artifact ends
in the move error and leaves `tmp/` in place. -/
theorem missing_artifact_fails_move_and_keeps_workdir_witness :
    (run ⟨[⟨"a.txt", "hi"⟩], some "%s", "slides.pdf", false, (0, 0)⟩).1 =
      RunResult.moveError ∧
    (run ⟨[⟨"a.txt", "hi"⟩], some "%s", "slides.pdf", false, (0, 0)⟩).2 =
      [Event.mkdirTmp,
       Event.writeTmp (TMP_DIR ++ (pyStem (pyName "slides.pdf") ++ ".tex"))
         (snippetStr "a" "hi"),
       Event.spawnCompiler (pyStem (pyName "slides.pdf") ++ ".tex") TMP_DIR,
       Event.spawnCompiler (pyStem (pyName "slides.pdf") ++ ".tex") TMP_DIR] ∧
    (∀ d, Event.removeTree d ∉
      (run ⟨[⟨"a.txt", "hi"⟩], some "%s", "slides.pdf", false, (0, 0)⟩).2) ∧
    ∀ s d, Event.move s d ∉
      (run ⟨[⟨"a.txt", "hi"⟩], some "%s", "slides.pdf", false, (0, 0)⟩).2 :=
  missing_artifact_fails_move_and_keeps_workdir _ (snippetStr "a" "hi") rfl rfl

/-- C8: two recognized files with the same base name produce a single
surviving entry, keyed by that base name, whose content is the stripped
content of the last-enumerated of the two files; no error occurs. -/
theorem same_stem_last_wins (f1 f2 : FileEntry)
    (h1 : recognized f1 = true) (h2 : recognized f2 = true)
    (hs : pyStem f1.name = pyStem f2.name) :
    collect [f1, f2] = [(pyStem f2.name, pyStrip f2.content)] := by
  simp [collect, collectAux, collectStep, h1, h2, dictInsert, hs]

/-- C8 witness: `a.txt` then `a.text` collapse to one entry `a`
carrying the stripped content of `a.text`. -/
theorem same_stem_last_wins_witness :
    collect [⟨"a.txt", "one"⟩, ⟨"a.text", "  two "⟩] =
      [(pyStem "a.text", pyStrip "  two ")] :=
  same_stem_last_wins ⟨"a.txt", "one"⟩ ⟨"a.text", "  two "⟩ rfl rfl rfl

/-- C9: fragment generation and template substitution never fail on
`'%'` characters inside a snippet's content and never reinterpret the
content as a format string: the content is supplied as a formatting
argument, so it is inserted verbatim — only `SNIPPET_UTT`'s own two
`%s` and the template's own placeholder are processed. -/
theorem content_never_interpreted_as_format (k v x : String)
    (pre post : List Char)
    (hpre : ∀ c ∈ pre, c ≠ '%') (hpost : ∀ c ∈ post, c ≠ '%') :
    pyFormat SNIPPET_UTT [k, v] = some (snippetStr k v) ∧
    pyFormat (String.mk (pre ++ '%' :: 's' :: post)) [x] =
      some (String.mk pre ++ (x ++ String.mk post)) := by
  exact ⟨pyFormat_snippet k v, pyFormatChars_placeholder pre post x hpre hpost⟩

/-- C9 witness: content containing `"%s"` and a lone `'%'` is inserted
verbatim both by the fragment pattern and by a template placeholder. -/
theorem content_never_interpreted_as_format_witness :
    pyFormat SNIPPET_UTT ["t", "100% off %s"] =
      some (snippetStr "t" "100% off %s") ∧
    pyFormat (String.mk ("A ".data ++ '%' :: 's' :: " B".data)) ["x %s y"] =
      some (String.mk "A ".data ++ ("x %s y" ++ String.mk " B".data)) :=
  content_never_interpreted_as_format "t" "100% off %s" "x %s y"
    "A ".data " B".data (by decide) (by decide)

/-- C10: a file whose entire name is one of the recognized extension
spellings is not collected: its suffix is empty, so it fails the
whitelist test even though the name ends in a recognized spelling. -/
theorem bare_extension_name_not_collected (c1 c2 : String) :
    collect [⟨".txt", c1⟩] = [] ∧
    collect [⟨".TEXT", c2⟩] = [] ∧
    pySuffix ".txt" = "" ∧
    pySuffix ".TEXT" = "" := by
  refine ⟨?_, ?_, by decide, by decide⟩
  · simp [collect, collectAux, collectStep,
      show recognized ⟨".txt", c1⟩ = false from rfl]
  · simp [collect, collectAux, collectStep,
      show recognized ⟨".TEXT", c2⟩ = false from rfl]

end GenSlideshow
